import Mathlib

/-!
Verification of the Instance Resolver core (file src/unnamed/part_000) of the
physiome-coko repository.  The JavaScript code is shallowly embedded: JS objects
become association lists with first-binding-wins lookup, JS truthiness is made
explicit, asynchronous effects (persistence, BPM engine calls, pub/sub) are
recorded in explicit effect records, and external collaborators (the ACL rule
evaluator, the database, the engine task list, validation sets, sequence
allocation) are parameters of the embedded operations.
-/

namespace PhysiomeRes

/-- Primitive JavaScript values: null, booleans, strings and numbers. -/
inductive JsPrim where
  | pNull
  | pBool (b : Bool)
  | pStr (s : String)
  | pNum (n : Int)
deriving DecidableEq, Repr

/-- JavaScript values as the resolver manipulates them: primitives plus one
level of arrays and plain objects.  The embedded code paths never inspect
deeper nesting, so one level is a faithful cut. -/
inductive JsValue where
  | prim (p : JsPrim)
  | arr (elems : List JsPrim)
  | obj (fields : List (String × JsPrim))
deriving DecidableEq, Repr

/-- Shorthand for string values. -/
def jstr (s : String) : JsValue := .prim (.pStr s)

/-- Shorthand for number values. -/
def jnum (n : Int) : JsValue := .prim (.pNum n)

/-- JavaScript truthiness of a value. -/
def truthy : JsValue → Bool
  | .prim .pNull => false
  | .prim (.pBool b) => b
  | .prim (.pStr s) => !s.isEmpty
  | .prim (.pNum n) => n != 0
  | .arr _ => true
  | .obj _ => true

/-- A JavaScript object: ordered bindings from keys to values.  Objects built
by the embedding keep at most one binding per key, mirroring JS objects. -/
abbrev JsObject := List (String × JsValue)

/-- Property read obj[k]; none plays the role of undefined. -/
def jget (o : List (String × α)) (k : String) : Option α :=
  (o.find? (fun p => p.1 == k)).map (fun p => p.2)

/-- Property write obj[k] = v: replace the first binding of k, or append.
On unique-key objects (every JS object) this is exactly JS assignment. -/
def jset : List (String × α) → String → α → List (String × α)
  | [], k, v => [(k, v)]
  | p :: rest, k, v => if p.1 == k then (k, v) :: rest else p :: jset rest k v

/-- Property removal, delete obj[k]. -/
def jdel (o : List (String × α)) (k : String) : List (String × α) :=
  o.filter (fun p => p.1 != k)

/-- Object.assign(target, src): every binding of src written onto target. -/
def objAssign (target src : List (String × α)) : List (String × α) :=
  src.foldl (fun acc kv => jset acc kv.1 kv.2) target

@[simp] theorem jget_nil (k : String) : jget ([] : List (String × α)) k = none := rfl

theorem jget_cons (p : String × α) (o : List (String × α)) (k : String) :
    jget (p :: o) k = if p.1 == k then some p.2 else jget o k := by
  by_cases h : p.1 == k <;> simp [jget, List.find?_cons, h]

@[simp] theorem jget_jset_self (o : List (String × α)) (k : String) (v : α) :
    jget (jset o k v) k = some v := by
  induction o with
  | nil => simp [jset, jget_cons]
  | cons p rest ih =>
    by_cases h : p.1 == k
    · simp [jset, h, jget_cons]
    · simp [jset, h, jget_cons, ih]

theorem jget_jset_ne (o : List (String × α)) {k k' : String} (v : α) (h : k' ≠ k) :
    jget (jset o k v) k' = jget o k' := by
  induction o with
  | nil =>
    have : (k == k') = false := by simpa [beq_iff_eq] using fun hk => h hk.symm
    simp [jset, jget_cons, this]
  | cons p rest ih =>
    by_cases hp : p.1 == k
    · have hk : p.1 = k := by simpa using hp
      have h1 : (k == k') = false := by simpa [beq_iff_eq] using fun hk2 => h hk2.symm
      have h2 : (p.1 == k') = false := by simpa [hk, beq_iff_eq] using fun hk2 => h hk2.symm
      simp [jset, hp, jget_cons, h1, h2]
    · by_cases hp' : p.1 == k'
      · simp [jset, hp, jget_cons, hp']
      · simp [jset, hp, jget_cons, hp', ih]

theorem mem_keys_jset (o : List (String × α)) (k : String) (v : α) :
    ∀ k', k' ∈ (jset o k v).map Prod.fst → k' ∈ o.map Prod.fst ∨ k' = k := by
  induction o with
  | nil => intro k' hk'; simp [jset] at hk'; right; exact hk'
  | cons p rest ih =>
    intro k' hk'
    cases hp : (p.1 == k) with
    | true =>
      rw [show jset (p :: rest) k v = (k, v) :: rest from by simp [jset, hp]] at hk'
      rw [List.map_cons] at hk'
      rcases List.mem_cons.mp hk' with h | h
      · right; exact h
      · left; rw [List.map_cons]; exact List.mem_cons_of_mem _ h
    | false =>
      rw [show jset (p :: rest) k v = p :: jset rest k v from by simp [jset, hp]] at hk'
      rw [List.map_cons] at hk'
      rcases List.mem_cons.mp hk' with h | h
      · left; rw [List.map_cons]; exact h ▸ List.mem_cons_self _ _
      · rcases ih k' h with h2 | h2
        · left; rw [List.map_cons]; exact List.mem_cons_of_mem _ h2
        · right; exact h2

theorem mem_keys_jdel (o : List (String × α)) (k : String) :
    ∀ k', k' ∈ (jdel o k).map Prod.fst → k' ∈ o.map Prod.fst := by
  intro k' hk'
  simp only [jdel] at hk'
  rcases List.mem_map.mp hk' with ⟨p, hp, hpk⟩
  exact List.mem_map.mpr ⟨p, List.mem_of_mem_filter hp, hpk⟩

theorem objAssign_cons (target : List (String × α)) (p : String × α)
    (rest : List (String × α)) :
    objAssign target (p :: rest) = objAssign (jset target p.1 p.2) rest := rfl

/-- Lookup over Object.assign: a binding of src wins; otherwise target is
consulted.  Requires the keys of src to be unique (as in any JS object). -/
theorem jget_objAssign (src : List (String × α)) :
    ∀ target k, (src.map Prod.fst).Nodup →
      jget (objAssign target src) k =
        match jget src k with
        | some v => some v
        | none => jget target k := by
  induction src with
  | nil => intro target k _; simp [objAssign]
  | cons p rest ih =>
    intro target k hnd
    simp only [List.map_cons, List.nodup_cons] at hnd
    rw [objAssign_cons, ih (jset target p.1 p.2) k hnd.2, jget_cons]
    cases hp : (p.1 == k) with
    | true =>
      have hk : p.1 = k := by simpa using hp
      have hnone : jget rest k = none := by
        rcases hfind : rest.find? (fun q => q.1 == k) with _ | q
        · simp [jget, hfind]
        · exfalso
          have hq1 : q.1 = k := by simpa using List.find?_some hfind
          have hqmem := List.mem_of_find?_eq_some hfind
          exact hnd.1 (hk ▸ hq1 ▸ List.mem_map.mpr ⟨q, hqmem, rfl⟩)
      rw [hnone]
      simp [hk]
    | false =>
      have hne : k ≠ p.1 := fun hkk => by simp [hkk] at hp
      simp only [Bool.false_eq_true, if_false]
      cases hr : jget rest k with
      | some v => simp
      | none => simp [jget_jset_ne target p.2 hne]


/-! ## Entities, identities and ACL matches -/

/-- An authenticated identity: the attributes the resolver reads from the
resolved user (Identity is an external model). -/
structure Identity where
  id : String
  isValidatedEmail : Bool := false
deriving DecidableEq, Repr

/-- A persisted entity instance: the id column plus the remaining columns.
A missing binding plays the role of undefined. -/
structure Instance where
  id : String
  fields : JsObject := []
deriving DecidableEq, Repr

/-- Property read instance[f]; the id column is carried separately. -/
def Instance.get (inst : Instance) (f : String) : Option JsValue :=
  if f == "id" then some (jstr inst.id) else jget inst.fields f

/-- The record produced by acl.applyRules.  The ACL rule evaluator is an
external collaborator; the resolver only consumes its match record.  A none
in an optional attribute models a null or undefined attribute (falsy); a
some [] models a present empty array (truthy in JS). -/
structure AclMatch where
  allow : Bool
  allowedFields : Option (List String) := none
  allowedRestrictions : Option (List String) := none
  allowedTasks : Option (List String) := none
deriving DecidableEq, Repr

/-- AdditionalAllowedGetFields, part_000 line 42. -/
def AdditionalAllowedGetFields : List String :=
  ["id", "created", "updated", "tasks", "restrictedFields"]

/-- The helper _allowedReadFieldKeysForInstance (part_000 lines 1308-1319): the keys of
every model element carrying a truthy field name. -/
def allowedReadFieldKeys (fieldsOfElements : List String) : List String :=
  fieldsOfElements.filter (fun f => f != "")

/-- InstanceResolver.prototype.getAllowedReadFields (part_000 lines 108-117).
The first argument is the precomputed allowedReadFields key list of the
resolver; readAcl is the read-ACL match (null when the model has no ACL).
Lodash pick keeps exactly the keys named in allowedFields, so the picked map
holds the keys lying in both lists. -/
def getAllowedReadFields (allowedReadFields : List String) (readAcl : Option AclMatch)
    (includeAdditionalFields : Bool) : List String :=
  let base :=
    match readAcl with
    | some m =>
      match m.allowedFields with
      | some fs => allowedReadFields.filter (fun f => fs.contains f)
      | none => allowedReadFields
    | none => allowedReadFields
  if includeAdditionalFields then base ++ AdditionalAllowedGetFields else base

/-- The allow branch of InstanceResolver.prototype._getInstance (part_000
lines 131-147): start from an object holding id, copy every requested allowed
field that is defined on the instance, then set restrictedFields to the
requested fields outside the allowed set, deleting the key when that list is
empty. -/
def getInstanceAllowedDTO (allowed : List String) (inst : Instance)
    (topLevelFields : List String) : JsObject :=
  let r0 : JsObject := [("id", jstr inst.id)]
  let r1 := (topLevelFields.filter (fun f => allowed.contains f)).foldl
    (fun acc f =>
      match inst.get f with
      | some v => jset acc f v
      | none => acc) r0
  let restricted := topLevelFields.filter (fun f => !allowed.contains f)
  if restricted.isEmpty then jdel r1 "restrictedFields"
  else jset r1 "restrictedFields" (.arr (restricted.map .pStr))

/-- InstanceResolver.prototype._getInstance (part_000 lines 120-148).
aclMatch is none when the resolver carries no ACL, and the result of
acl.applyRules(targets, read, instance) otherwise. -/
def getInstanceDTO (aclMatch : Option AclMatch) (allowedReadFields : List String)
    (inst : Instance) (topLevelFields : List String) : JsObject :=
  match aclMatch with
  | some m =>
    if m.allow then
      getInstanceAllowedDTO (getAllowedReadFields allowedReadFields (some m) true)
        inst topLevelFields
    else
      [("id", jstr inst.id),
       ("restrictedFields", .arr ((topLevelFields.filter (fun f => f != "id")).map .pStr))]
  | none =>
    getInstanceAllowedDTO (getAllowedReadFields allowedReadFields none true)
      inst topLevelFields

theorem mem_keys_foldl_get (inst : Instance) (fs : List String) :
    ∀ (acc : JsObject) k,
      k ∈ (fs.foldl (fun acc f =>
            match inst.get f with
            | some v => jset acc f v
            | none => acc) acc).map Prod.fst →
      k ∈ acc.map Prod.fst ∨ k ∈ fs := by
  induction fs with
  | nil => intro acc k h; left; exact h
  | cons f rest ih =>
    intro acc k h
    rw [List.foldl_cons] at h
    rcases ih _ k h with h2 | h2
    · cases hg : inst.get f with
      | some v =>
        simp only [hg] at h2
        rcases mem_keys_jset acc f v k h2 with h3 | h3
        · left; exact h3
        · right; exact h3 ▸ List.mem_cons_self _ _
      | none =>
        simp only [hg] at h2
        left; exact h2
    · right; exact List.mem_cons_of_mem _ h2

theorem mem_keys_getInstanceAllowedDTO (allowed : List String) (inst : Instance)
    (tlf : List String) :
    ∀ k, k ∈ (getInstanceAllowedDTO allowed inst tlf).map Prod.fst →
      k = "id" ∨ k ∈ allowed ∨ k = "restrictedFields" := by
  intro k hk
  unfold getInstanceAllowedDTO at hk
  have base :
      ∀ k', k' ∈ ((tlf.filter (fun f => allowed.contains f)).foldl
        (fun acc f =>
          match inst.get f with
          | some v => jset acc f v
          | none => acc) [("id", jstr inst.id)]).map Prod.fst →
        k' = "id" ∨ k' ∈ allowed ∨ k' = "restrictedFields" := by
    intro k' hk'
    rcases mem_keys_foldl_get inst _ _ k' hk' with h | h
    · left; simpa using h
    · right; left
      have hc := List.of_mem_filter h
      simpa using hc
  by_cases hres : (tlf.filter (fun f => !allowed.contains f)).isEmpty
  · simp only [hres, if_true] at hk
    exact base k (mem_keys_jdel _ _ k hk)
  · simp only [hres, if_false] at hk
    rcases mem_keys_jset _ _ _ k hk with h | h
    · exact base k h
    · right; right; exact h

/-- C1: for every read (get, and each entity returned by list, both of which
project through _getInstance), the keys of the returned DTO all lie in the
intersection of the model allowed-read fields with the read-match
allowedFields (all allowed-read fields when allowedFields is unset) together
with the fixed additions id, created, updated, tasks, restrictedFields; and
when the read ACL denies, the DTO is exactly the object holding id and
restrictedFields = every requested top-level field except id. -/
theorem read_dto_fields_subset_allowed
    (aclMatch : Option AclMatch) (allowedReadFields : List String)
    (inst : Instance) (topLevelFields : List String) :
    (∀ k, k ∈ (getInstanceDTO aclMatch allowedReadFields inst topLevelFields).map Prod.fst →
        k ∈ AdditionalAllowedGetFields ∨
          (k ∈ allowedReadFields ∧
            ∀ fs, aclMatch.bind AclMatch.allowedFields = some fs → k ∈ fs)) ∧
    (∀ m, aclMatch = some m → m.allow = false →
        getInstanceDTO aclMatch allowedReadFields inst topLevelFields =
          [("id", jstr inst.id),
           ("restrictedFields",
             .arr ((topLevelFields.filter (fun f => f != "id")).map .pStr))]) := by
  rcases aclMatch with _ | m
  · constructor
    · intro k hk
      simp only [getInstanceDTO] at hk
      rcases mem_keys_getInstanceAllowedDTO _ _ _ k hk with h | h | h
      · left; rw [h]; decide
      · simp only [getAllowedReadFields, if_true] at h
        rcases List.mem_append.mp h with h2 | h2
        · right; exact ⟨h2, fun fs hfs => by simp at hfs⟩
        · left; exact h2
      · left; rw [h]; decide
    · intro m hm; exact absurd hm (by simp)
  · constructor
    · intro k hk
      by_cases hallow : m.allow
      · simp only [getInstanceDTO, hallow, if_true] at hk
        rcases mem_keys_getInstanceAllowedDTO _ _ _ k hk with h | h | h
        · left; rw [h]; decide
        · simp only [getAllowedReadFields, if_true] at h
          rcases List.mem_append.mp h with h2 | h2
          · right
            cases hmf : m.allowedFields with
            | some fs =>
              rw [hmf] at h2
              constructor
              · exact List.mem_of_mem_filter h2
              · intro fs' hfs'
                simp only [Option.bind, hmf] at hfs'
                have : fs = fs' := by injection hfs'
                have hc := List.of_mem_filter h2
                rw [← this]
                simpa using hc
            | none =>
              rw [hmf] at h2
              exact ⟨h2, fun fs' hfs' => by simp [Option.bind, hmf] at hfs'⟩
          · left; exact h2
        · left; rw [h]; decide
      · have hfalse : m.allow = false := by simpa using hallow
        simp only [getInstanceDTO, hfalse, Bool.false_eq_true, if_false] at hk
        simp only [List.map_cons, List.map_nil] at hk
        rcases List.mem_cons.mp hk with h | h
        · left; rw [h]; decide
        · rcases List.mem_cons.mp h with h2 | h2
          · left; rw [h2]; decide
          · simp at h2
    · intro m' hm' hallow'
      have : m' = m := by injection hm'.symm
      subst this
      simp [getInstanceDTO, hallow']

/-- Witness for C1 at a concrete configuration: a read match allowing only
the title field, a request for title, secret and created. -/
theorem read_dto_fields_subset_allowed_witness :
    ("title" ∈
      (getInstanceDTO (some { allow := true, allowedFields := some ["title"] })
        ["title", "secret"]
        { id := "A", fields := [("title", jstr "x"), ("secret", jstr "s")] }
        ["title", "secret", "created"]).map Prod.fst) ∧
    ("title" ∈ AdditionalAllowedGetFields ∨
      ("title" ∈ ["title", "secret"] ∧
        ∀ fs, (some { allow := true, allowedFields := some ["title"],
                      allowedRestrictions := none,
                      allowedTasks := none : AclMatch }).bind AclMatch.allowedFields
            = some fs → "title" ∈ fs)) :=
  ⟨by decide,
   (read_dto_fields_subset_allowed
      (some { allow := true, allowedFields := some ["title"] })
      ["title", "secret"]
      { id := "A", fields := [("title", jstr "x"), ("secret", jstr "s")] }
      ["title", "secret", "created"]).1 "title" (by decide)⟩

/-! ## Listing: filter translation and ownership scoping -/

/-- A database row as the WHERE clauses see it: column bindings where none
models SQL NULL; a column absent from the binding list is NULL as well. -/
abbrev Row := List (String × Option JsValue)

/-- The SQL value of a column in a row (none = NULL). -/
def rowVal (row : Row) (c : String) : Option JsValue :=
  match jget row c with
  | some v => v
  | none => none

/-- A declared listing-filter element; the resolver consumes its field name
and its listingFilterMultiple flag. -/
structure ListingFilterField where
  field : String
  listingFilterMultiple : Bool := false
deriving DecidableEq, Repr

/-- A declared owner element: the join column holding the owner identity id. -/
structure OwnerField where
  joinField : String
deriving DecidableEq, Repr

/-- The error classes the resolver throws: UserInputError, AuthorizationError
and NotFoundError are dedicated imported classes; generic is a plain Error. -/
inductive ErrKind where
  | userInput
  | authorization
  | notFound
  | generic
deriving DecidableEq, Repr

/-- A thrown error: its class and its message. -/
structure RError where
  kind : ErrKind
  msg : String
deriving DecidableEq, Repr

/-- The WHERE fragment the listing builder adds for one declared filter field
whose input filter value is v (part_000 lines 283-307), read as a predicate
on rows: whereIn is SQL IN, where(field, v) is SQL equality (NULL rejecting),
where(field, false).orWhereNull(field) is the tri-state false test.  A
non-null, non-array value on a listingFilterMultiple field adds no clause. -/
def fieldFilterPred (f : ListingFilterField) (v : JsValue) (row : Row) : Bool :=
  if v != .prim .pNull then
    if f.listingFilterMultiple then
      match v with
      | .arr xs => xs.any (fun x => rowVal row f.field == some (.prim x))
      | _ => true
    else
      if v == .prim (.pBool false) then
        rowVal row f.field == some (.prim (.pBool false)) || rowVal row f.field == none
      else rowVal row f.field == some v
  else rowVal row f.field == none

/-- The conjunction of clauses the listing where-builder produces (part_000
lines 256-308) on a resolver without extensions: each declared listing-filter
field whose key is present (not undefined) on the input filter contributes
its clause; all other filter keys contribute nothing. -/
def listingFilterPred (ffs : List ListingFilterField) (flt : JsObject) (row : Row) : Bool :=
  ffs.all (fun f =>
    match jget flt f.field with
    | none => true
    | some v => fieldFilterPred f v row)

/-- Whether one row satisfies the complete WHERE clause the listing query
builds (part_000 lines 236-360) on a resolver without extensions: the filter
clauses AND-combined with the ownership disjunction added when the
access-match restrictions lack "all"; with such restrictions and no user the
builder throws before any row is considered (lines 337-341). -/
def listFilterPart (ffs : List ListingFilterField) (flt : Option JsObject)
    (row : Row) : Bool :=
  match flt with
  | none => true
  | some f0 => if ffs.isEmpty then true else listingFilterPred ffs f0 row

def listWhereEval (ffs : List ListingFilterField) (flt : Option JsObject)
    (allowedRestrictions : List String) (user : Option Identity)
    (ownerFields : List OwnerField) (row : Row) : Except RError Bool :=
  let filterPart := listFilterPart ffs flt row
  if allowedRestrictions.contains "all" then .ok filterPart
  else
    match user with
    | none => .error ⟨.authorization, "You must be a valid user "⟩
    | some u =>
      if ownerFields.isEmpty then .ok filterPart
      else .ok (filterPart &&
        ownerFields.any (fun f => rowVal row f.joinField == some (jstr u.id)))

/-- C2 counterexample: with restriction "owner", an authenticated user and a
model declaring no owner field, the builder adds no ownership clause
(part_000 line 343 guards on a non-empty ownerFields), so a row with no owner
column passes the WHERE clause even though it has no owner field equal to the
subject id. -/
theorem list_ownership_scoping_counterexample :
    listWhereEval [] none ["owner"] (some { id := "u1" }) [] [] = .ok true ∧
    (([] : List OwnerField).any
      (fun f => rowVal [] f.joinField == some (jstr "u1"))) = false := by
  constructor
  · rfl
  · rfl

/-- C2 (amended): on a list call whose access-match restrictions lack "all",
a missing subject makes the where-builder throw an AuthorizationError; and
when a subject is present and at least one owner join field is declared,
every row satisfying the built WHERE clause has some owner join column equal
to the subject id (with no declared owner field the code adds no ownership
clause at all). -/
theorem list_ownership_scoping
    (ffs : List ListingFilterField) (flt : Option JsObject)
    (allowedRestrictions : List String) (user : Option Identity)
    (ownerFields : List OwnerField) :
    (allowedRestrictions.contains "all" = false → user = none →
      ∀ row, listWhereEval ffs flt allowedRestrictions user ownerFields row =
        .error ⟨.authorization, "You must be a valid user "⟩) ∧
    (∀ u row, allowedRestrictions.contains "all" = false → user = some u →
      ownerFields ≠ [] →
      listWhereEval ffs flt allowedRestrictions user ownerFields row = .ok true →
      ownerFields.any (fun f => rowVal row f.joinField == some (jstr u.id)) = true) := by
  constructor
  · intro hall huser row
    subst huser
    unfold listWhereEval
    rw [hall]
    rfl
  · intro u row hall huser hne hok
    subst huser
    have hne2 : ownerFields.isEmpty = false := by
      cases ownerFields with
      | nil => exact absurd rfl hne
      | cons a l => rfl
    have hrw : listWhereEval ffs flt allowedRestrictions (some u) ownerFields row
        = .ok (listFilterPart ffs flt row &&
            ownerFields.any (fun f => rowVal row f.joinField == some (jstr u.id))) := by
      unfold listWhereEval
      rw [hall, hne2]
      rfl
    rw [hrw] at hok
    have hb := Except.ok.inj hok
    rw [Bool.and_eq_true] at hb
    exact hb.2

/-- Witness for C2 at a concrete configuration: restriction "owner", user u1,
one owner join field, a row owned by u1. -/
theorem list_ownership_scoping_witness :
    (["owner"].contains "all" = false) ∧
    ([{ joinField := "submitter" }] ≠ ([] : List OwnerField)) ∧
    (listWhereEval [] none ["owner"] (some { id := "u1" })
        [{ joinField := "submitter" }] [("submitter", some (jstr "u1"))] = .ok true) ∧
    ([{ joinField := "submitter" : OwnerField }].any
      (fun f => rowVal [("submitter", some (jstr "u1"))] f.joinField
          == some (jstr "u1")) = true) :=
  ⟨by decide, by decide, by rfl,
   (list_ownership_scoping [] none ["owner"] (some { id := "u1" })
      [{ joinField := "submitter" }]).2 { id := "u1" }
      [("submitter", some (jstr "u1"))] (by decide) rfl
      (by decide) (by rfl)⟩

theorem fieldFilterPred_cases (f : ListingFilterField) (v : JsValue) (row : Row) :
    fieldFilterPred f v row =
      if v == .prim .pNull then rowVal row f.field == none
      else if f.listingFilterMultiple then
        match v with
        | .arr xs => xs.any (fun x => rowVal row f.field == some (.prim x))
        | _ => true
      else if v == .prim (.pBool false) then
        (rowVal row f.field == some (.prim (.pBool false)) || rowVal row f.field == none)
      else rowVal row f.field == some v := by
  unfold fieldFilterPred
  by_cases hv : v == .prim .pNull
  · simp [bne, hv]
  · simp [bne, hv]

/-- The input filter with every key outside the declared listing-filter
fields removed. -/
def restrictToDeclared (ffs : List ListingFilterField) (flt : JsObject) : JsObject :=
  flt.filter (fun kv => ffs.any (fun f => f.field == kv.1))

theorem jget_restrictToDeclared (ffs : List ListingFilterField) (flt : JsObject)
    (f : ListingFilterField) (hf : f ∈ ffs) :
    jget (restrictToDeclared ffs flt) f.field = jget flt f.field := by
  induction flt with
  | nil => rfl
  | cons kv rest ih =>
    by_cases hk : kv.1 == f.field
    · have hany : ffs.any (fun g => g.field == kv.1) = true := by
        refine List.any_eq_true.mpr ⟨f, hf, ?_⟩
        have : kv.1 = f.field := by simpa using hk
        simp [this]
      rw [show restrictToDeclared ffs (kv :: rest)
            = kv :: restrictToDeclared ffs rest from by
          simp [restrictToDeclared, List.filter_cons, hany]]
      rw [jget_cons, jget_cons, hk]
      rfl
    · by_cases hany : ffs.any (fun g => g.field == kv.1)
      · rw [show restrictToDeclared ffs (kv :: rest)
              = kv :: restrictToDeclared ffs rest from by
            simp [restrictToDeclared, List.filter_cons, hany]]
        rw [jget_cons, jget_cons]
        have hkf : (kv.1 == f.field) = false := by simpa using hk
        rw [hkf]
        simpa using ih
      · rw [show restrictToDeclared ffs (kv :: rest)
              = restrictToDeclared ffs rest from by
            simp only [restrictToDeclared, List.filter_cons]
            simp [hany]]
        rw [jget_cons]
        have hkf : (kv.1 == f.field) = false := by simpa using hk
        rw [hkf]
        simpa using ih

theorem listingFilterPred_congr (gs : List ListingFilterField) (flt flt' : JsObject)
    (row : Row) (h : ∀ f ∈ gs, jget flt' f.field = jget flt f.field) :
    listingFilterPred gs flt' row = listingFilterPred gs flt row := by
  induction gs with
  | nil => rfl
  | cons g rest ih =>
    have hr := ih (fun f hf => h f (List.mem_cons_of_mem _ hf))
    simp only [listingFilterPred, List.all_cons] at hr ⊢
    rw [h g (List.mem_cons_self _ _), hr]

/-- C8 counterexample: on a listing-filter-multiple field, a non-null scalar
filter value adds no WHERE clause (part_000 lines 285-290 only handle
arrays), so a row whose column differs from the scalar still passes, where
the claim required the clause field = value. -/
theorem listing_filter_counterexample :
    listingFilterPred [{ field := "status", listingFilterMultiple := true }]
      [("status", jstr "draft")] [("status", some (jstr "other"))] = true ∧
    (rowVal [("status", some (jstr "other"))] "status" == some (jstr "draft")) = false := by
  constructor
  · rfl
  · rfl

/-- C8 (amended): on a resolver without extensions, the listing WHERE
conjunction ranges over the declared listing-filter fields only (removing
filter keys outside the declared fields leaves it unchanged), and for each
declared field present on the input filter the clause is: null gives IS
NULL; on a listing-filter-multiple field an array gives IN (values) and any
other non-null value is ignored; otherwise the scalar false gives an
equals-false-or-IS-NULL test and any other value an equality test. -/
theorem listing_filter_semantics
    (ffs : List ListingFilterField) (flt : JsObject) (row : Row) :
    (listingFilterPred ffs flt row =
      ffs.all (fun f =>
        match jget flt f.field with
        | none => true
        | some v =>
          if v == .prim .pNull then rowVal row f.field == none
          else if f.listingFilterMultiple then
            match v with
            | .arr xs => xs.any (fun x => rowVal row f.field == some (.prim x))
            | _ => true
          else if v == .prim (.pBool false) then
            (rowVal row f.field == some (.prim (.pBool false)) || rowVal row f.field == none)
          else rowVal row f.field == some v)) ∧
    listingFilterPred ffs (restrictToDeclared ffs flt) row =
      listingFilterPred ffs flt row := by
  constructor
  · induction ffs with
    | nil => rfl
    | cons g rest ih =>
      simp only [listingFilterPred, List.all_cons] at ih ⊢
      rw [ih]
      congr 1
      cases hj : jget flt g.field with
      | none => rfl
      | some v => exact fieldFilterPred_cases g v row
  · exact listingFilterPred_congr ffs flt (restrictToDeclared ffs flt) row
      (fun f hf => jget_restrictToDeclared ffs flt f hf)

/-! ## update -/

/-- The allowed update field set (part_000 line 540): the allowed input
fields of the model, intersected through lodash pick with the write-match
allowedFields when that is a truthy value. -/
def updateAllowedFields (allowedInputFields : List String)
    (aclWriteMatch : Option AclMatch) : List String :=
  match aclWriteMatch with
  | some m =>
    match m.allowedFields with
    | some fs => allowedInputFields.filter (fun f => fs.contains f)
    | none => allowedInputFields
  | none => allowedInputFields

/-- The disallowed keys update collects (part_000 lines 543-549): the input
keys outside the allowed field set, in input order. -/
def updateRestrictedKeys (allowed : List String) (input2 : JsObject) : List String :=
  (input2.map Prod.fst).filter (fun k => !allowed.contains k)

instance instDecEqExcept {e a : Type} [DecidableEq e] [DecidableEq a] :
    DecidableEq (Except e a)
  | .ok x, .ok y =>
    if h : x = y then isTrue (by rw [h]) else isFalse (fun he => h (Except.ok.inj he))
  | .ok _, .error _ => isFalse (fun he => Except.noConfusion he)
  | .error _, .ok _ => isFalse (fun he => Except.noConfusion he)
  | .error x, .error y =>
    if h : x = y then isTrue (by rw [h]) else isFalse (fun he => h (Except.error.inj he))

/-- The outcome of update past its ACL gates: the thrown error or returned
value, the object handed to save when save runs, and the id handed to
publishInstanceWasModified when the updated event is published. -/
structure UpdateOutcome where
  result : Except RError Bool
  savedObject : Option Instance
  publishedId : Option String
deriving DecidableEq, Repr

/-- InstanceResolver.prototype.update past its ACL gates (part_000 lines
534-557): the id key is deleted from the input (it is the lookup argument,
line 535), each remaining input key inside the allowed set is copied onto
the object while the others are collected as restricted, and a non-empty
restricted list throws an AuthorizationError naming those keys before save
and publish are reached. -/
def updateApply (allowedInputFields : List String) (aclWriteMatch : Option AclMatch)
    (instanceId : String) (input : JsObject) (object : Instance) : UpdateOutcome :=
  let input2 := jdel input "id"
  let allowed := updateAllowedFields allowedInputFields aclWriteMatch
  let step := input2.foldl
    (fun (acc : Instance × List String) kv =>
      if allowed.contains kv.1 then
        ({ acc.1 with fields := jset acc.1.fields kv.1 kv.2 }, acc.2)
      else (acc.1, acc.2 ++ [kv.1])) (object, [])
  if step.2.isEmpty then
    { result := .ok true, savedObject := some step.1, publishedId := some instanceId }
  else
    { result := .error ⟨.authorization,
        "You do not have write access on the following fields: "
          ++ String.intercalate ", " step.2⟩,
      savedObject := none, publishedId := none }

theorem updateApply_fold_restricted (allowed : List String) (input2 : JsObject) :
    ∀ (object : Instance) (acc0 : List String),
      (input2.foldl
        (fun (acc : Instance × List String) kv =>
          if allowed.contains kv.1 then
            ({ acc.1 with fields := jset acc.1.fields kv.1 kv.2 }, acc.2)
          else (acc.1, acc.2 ++ [kv.1])) (object, acc0)).2
        = acc0 ++ updateRestrictedKeys allowed input2 := by
  induction input2 with
  | nil => intro object acc0; simp [updateRestrictedKeys]
  | cons kv rest ih =>
    intro object acc0
    rw [List.foldl_cons]
    by_cases hc : allowed.contains kv.1
    · rw [if_pos hc]
      rw [ih _ acc0]
      have hmem : kv.1 ∈ allowed := by simpa using hc
      simp [updateRestrictedKeys, hmem]
    · rw [if_neg hc]
      rw [ih _ (acc0 ++ [kv.1])]
      have hnmem : kv.1 ∉ allowed := by simpa using hc
      simp [updateRestrictedKeys, hnmem]

/-- C3: on an update call whose input carries at least one key (other than
the id lookup argument, which line 535 deletes before the check) outside the
intersection of the model allowed-input fields with the write-match
allowedFields, the operation throws an AuthorizationError whose message
lists exactly the offending keys, and the entity is not saved and no updated
event is published. -/
theorem update_rejects_disallowed_fields
    (allowedInputFields : List String) (aclWriteMatch : Option AclMatch)
    (instanceId : String) (input : JsObject) (object : Instance)
    (hoff : updateRestrictedKeys
      (updateAllowedFields allowedInputFields aclWriteMatch) (jdel input "id") ≠ []) :
    updateApply allowedInputFields aclWriteMatch instanceId input object =
      { result := .error ⟨.authorization,
          "You do not have write access on the following fields: "
            ++ String.intercalate ", "
                (updateRestrictedKeys
                  (updateAllowedFields allowedInputFields aclWriteMatch)
                  (jdel input "id"))⟩,
        savedObject := none, publishedId := none } := by
  simp only [updateApply]
  rw [updateApply_fold_restricted
      (updateAllowedFields allowedInputFields aclWriteMatch) (jdel input "id") object []]
  rw [List.nil_append]
  rcases hcase : updateRestrictedKeys
      (updateAllowedFields allowedInputFields aclWriteMatch) (jdel input "id")
    with _ | ⟨a, l⟩
  · exact absurd hcase hoff
  · rfl

/-- Witness for C3 at a concrete configuration: write match allowing only
title, input updating title and secretCost. -/
theorem update_rejects_disallowed_fields_witness :
    updateApply ["title"] (some { allow := true, allowedFields := some ["title"] }) "A"
        [("id", jstr "A"), ("title", jstr "x"), ("secretCost", jnum 1)]
        { id := "A" } =
      { result := .error ⟨.authorization,
          "You do not have write access on the following fields: "
            ++ String.intercalate ", "
                (updateRestrictedKeys
                  (updateAllowedFields ["title"]
                    (some { allow := true, allowedFields := some ["title"] }))
                  (jdel [("id", jstr "A"), ("title", jstr "x"), ("secretCost", jnum 1)]
                    "id"))⟩,
        savedObject := none, publishedId := none } :=
  update_rejects_disallowed_fields ["title"]
    (some { allow := true, allowedFields := some ["title"] }) "A"
    [("id", jstr "A"), ("title", jstr "x"), ("secretCost", jnum 1)]
    { id := "A" } (by decide)

/-! ## Task completion: data model -/

/-- One entry of an outcome state overlay, the JS object {type, value}
(part_000 lines 1021-1039 distinguish type enum, type simple carrying an own
value property, and anything else). -/
inductive OutcomeStateVal where
  | enumRef (value : String)
  | simple (value : JsValue)
  | simpleNoValue
  | otherType
deriving DecidableEq, Repr

/-- An outcome descriptor of a form.  A none entry in state models a falsy
entry, which the overlay loop skips; an empty sequenceAssignment or
dateAssignments models an absent one (both are only read through truthiness
and length guards). -/
structure Outcome where
  type : String
  result : String
  requiresValidatedSubmitter : Bool := false
  skipValidations : Bool := false
  state : Option (List (String × Option OutcomeStateVal)) := none
  sequenceAssignment : List String := []
  dateAssignments : List String := []
deriving DecidableEq, Repr

/-- A form definition: its name and its outcomes. -/
structure FormDef where
  form : String
  outcomes : List Outcome
deriving DecidableEq, Repr

/-- An enum definition: its values map. -/
structure EnumDef where
  values : JsObject
deriving DecidableEq, Repr

/-- A declared id-sequence element: its field and its sequence name. -/
structure IdSequenceField where
  field : String
  idSequence : String
deriving DecidableEq, Repr

/-- A task as the engine task list returns it (after link stripping). -/
structure TaskItem where
  id : String
  taskDefinitionKey : String
deriving DecidableEq, Repr

/-- The CompleteTaskOutcome sentinel values (part_000 lines 34-38). -/
inductive CTOutcome where
  | success
  | validatedEmailRequired
  | validationFailed
deriving DecidableEq, Repr

/-- The engine task-completion call: its task id and its variables map
({key: {value}}); varsMap embeds the variables property of the source and
none models that property being absent. -/
structure EngineCompleteCall where
  taskId : String
  varsMap : Option JsObject := none
deriving DecidableEq, Repr

/-- Everything observable from one completeTask call: the thrown error or
the returned sentinel, whether taskService.list was reached, the instance
handed to save when save runs, the call handed to taskService.complete, and
the id published as modified. -/
structure CTResult where
  error : Option RError := none
  outcome : Option CTOutcome := none
  listedTasks : Bool := false
  savedInstance : Option Instance := none
  engineComplete : Option EngineCompleteCall := none
  publishedId : Option String := none
deriving DecidableEq, Repr

/-- The acl.applyRules collaborator: targets, action and optional entity to
a match record (the rule set itself lives outside this file). -/
abbrev AclPolicy := List String → String → Option Instance → AclMatch

/-- The per-resolver configuration completeTask consumes: precomputed model
introspection views, enums and the optional ACL. -/
structure ResolverCfg where
  forms : List FormDef := []
  stateFieldNames : List String := []
  ownerFields : List OwnerField := []
  idSequenceFields : List IdSequenceField := []
  dateTimeFieldNames : List String := []
  enums : List (String × EnumDef) := []
  acl : Option AclPolicy := none

/-- The completeTask arguments {id, taskId, form, outcome, state}. -/
structure CompleteTaskArgs where
  id : Option String := none
  taskId : Option String := none
  form : Option String := none
  outcome : Option String := none
  state : Option JsObject := none

/-- JS falsiness of an optional string argument. -/
def strFalsy : Option String → Bool
  | none => true
  | some s => s.isEmpty

/-! ## Task completion: pure helpers from the source -/

/-- InstanceResolver.prototype.resolveEnum (part_000 lines 1283-1290):
enums[name].values[key]; none models the null and undefined results. -/
def resolveEnum (enums : List (String × EnumDef)) (enumName enumKey : String) :
    Option JsValue :=
  match jget enums enumName with
  | some e => jget e.values enumKey
  | none => none

/-- InstanceResolver.prototype.userToAclTargets (part_000 lines 1251-1280):
targets always hold anonymous; administrator is added for any identity with
a truthy id; user and the owner scan require an entity as well. -/
def userToAclTargets (ownerFields : List OwnerField) (user : Option Identity)
    (object : Option Instance) : List String × Bool :=
  match user with
  | some u =>
    if !u.id.isEmpty then
      match object with
      | some obj =>
        let isOwner := ownerFields.any (fun f => obj.get f.joinField == some (jstr u.id))
        (["anonymous", "administrator", "user"] ++ (if isOwner then ["owner"] else []),
          isOwner)
      | none => (["anonymous", "administrator"], false)
    else (["anonymous"], false)
  | none => (["anonymous"], false)

/-- The helper _restrictionsApplyToUser (part_000 lines 1294-1305). -/
def restrictionsApplyToUser (restrictions : Option (List String)) (isOwner : Bool) :
    Bool :=
  match restrictions with
  | none => true
  | some rs =>
    if rs.isEmpty then true
    else if rs.contains "all" then true
    else isOwner && rs.contains "owner"

/-- The client state restricted to the declared state fields (part_000 lines
1013-1014): lodash pick over the state-field names, an empty object when the
state argument is falsy or no state field is declared. -/
def pickStateFields (stateFieldNames : List String) (state : Option JsObject) :
    JsObject :=
  match state with
  | none => []
  | some st =>
    if stateFieldNames.isEmpty then []
    else stateFieldNames.filterMap (fun k => (jget st k).map (fun v => (k, v)))

/-- JS String.split with separator "." on a character list. -/
def splitDotChars : List Char → List (List Char)
  | [] => [[]]
  | c :: rest =>
    if c = '.' then [] :: splitDotChars rest
    else
      match splitDotChars rest with
      | h :: t => (c :: h) :: t
      | [] => [[c]]

/-- JS value.split of part_000 line 1029 with its literal "." separator. -/
def jsSplitDot (s : String) : List String :=
  (splitDotChars s.data).map (fun cs => String.mk cs)

/-- The value one outcome-state entry contributes (part_000 lines 1028-1039):
an enum reference E.K resolves through resolveEnum and is kept only when the
resolved value is truthy; a simple entry with an own value property
contributes its literal value; everything else contributes nothing. -/
def resolveOverrideVal (enums : List (String × EnumDef)) :
    OutcomeStateVal → Option JsValue
  | .enumRef s =>
    match jsSplitDot s with
    | [e, k] =>
      match resolveEnum enums e k with
      | some rv => if truthy rv then some rv else none
      | none => none
    | _ => none
  | .simple v => some v
  | .simpleNoValue => none
  | .otherType => none

/-- Build an object by writing, for each binding kv of m in order, the value
g kv (when some) under key kv.1: the shape of the overlay and marshaling
loops of the source. -/
def objCollect (g : (String × α) → Option JsValue) (m : List (String × α)) :
    JsObject :=
  m.foldl (fun acc kv =>
    match g kv with
    | some w => jset acc kv.1 w
    | none => acc) []

/-- The overriddenValues object of completeTask (part_000 lines 1019-1040):
each non-falsy outcome-state entry contributes its resolved value. -/
def resolveOutcomeStateOverrides (enums : List (String × EnumDef))
    (ostate : List (String × Option OutcomeStateVal)) : JsObject :=
  objCollect (fun kv =>
    match kv.2 with
    | some v => resolveOverrideVal enums v
    | none => none) ostate

/-- The final filtered state of completeTask (part_000 lines 1013-1043):
the client state restricted to declared state fields, then Object.assign of
the resolved outcome overrides on top. -/
def computeFilteredState (stateFieldNames : List String) (state : Option JsObject)
    (enums : List (String × EnumDef))
    (outcomeState : Option (List (String × Option OutcomeStateVal))) : JsObject :=
  let fs := pickStateFields stateFieldNames state
  match outcomeState with
  | none => fs
  | some os => objAssign fs (resolveOutcomeStateOverrides enums os)

/-- typeof value is string or number, or value is null (part_000 lines 768,
876, 1113). -/
def isMarshalableValue : JsValue → Bool
  | .prim (.pStr _) => true
  | .prim (.pNum _) => true
  | .prim .pNull => true
  | _ => false

/-- The wrapping the engine variable maps apply to a value v: {value: v}. -/
def wrapVariable : JsValue → JsValue
  | .prim p => .obj [("value", p)]
  | v => v

/-- The variable contribution of one state binding: the wrapped value for a
string, number or null value, nothing otherwise. -/
def marshalEntry (kv : String × JsValue) : Option JsValue :=
  if isMarshalableValue kv.2 then some (wrapVariable kv.2) else none

/-- The newVars map the marshaling loops build (part_000 lines 872-879 and
1102-1118): only string, number and null values are forwarded, wrapped. -/
def marshalStateVariables (m : JsObject) : JsObject :=
  objCollect marshalEntry m

/-- One step of the state application loop of completeTask (part_000 lines
1104-1116): apply the binding to the instance when it differs, record the
modification flag, and add the marshaled variable when the value is a
string, a number or null. -/
def stateApplyStep (acc : Instance × Bool × JsObject) (kv : String × JsValue) :
    Instance × Bool × JsObject :=
  let inst1 := acc.1
  let changed := inst1.get kv.1 != some kv.2
  let newInst :=
    if changed then { inst1 with fields := jset inst1.fields kv.1 kv.2 } else inst1
  let newVars :=
    match marshalEntry kv with
    | some w => jset acc.2.2 kv.1 w
    | none => acc.2.2
  (newInst, acc.2.1 || changed, newVars)

/-- The state application loop of completeTask (part_000 lines 1100-1119)
run over the filtered state: the updated instance, the didModify flag
contribution and the newVars variables map. -/
def applyStateLoop (inst : Instance) (filteredState : JsObject) :
    Instance × Bool × JsObject :=
  filteredState.foldl stateApplyStep (inst, false, [])

/-- A start instruction handed to processDefinitionService.start. -/
structure StartInstruction where
  type : String
  activityId : String
deriving DecidableEq, Repr

/-- The options handed to processDefinitionService.start; varsMap embeds the
variables property and none models that property being absent. -/
structure StartProcessOpts where
  key : String
  businessKey : String
  startInstructions : List StartInstruction := []
  varsMap : Option JsObject := none
deriving DecidableEq, Repr

/-- The variables map restart assembles (part_000 lines 759-777): for each
declared state field, the instance value when it is a string, a number or
null, wrapped. -/
def restartVariables (stateFieldNames : List String) (inst : Instance) : JsObject :=
  stateFieldNames.foldl (fun acc f =>
    match inst.get f with
    | some v =>
      match marshalEntry (f, v) with
      | some w => jset acc f w
      | none => acc
    | none => acc) []

/-- InstanceResolver.prototype.restart (part_000 lines 744-789): the start
options handed to processDefinitionService.start; the variables property is
only set when the loop put at least one variable in. -/
def restartStartOpts (processKey : String) (stateFieldNames : List String)
    (inst : Instance) (startAfterActivityId : String) : StartProcessOpts :=
  let base : StartProcessOpts :=
    { key := processKey, businessKey := inst.id,
      startInstructions :=
        [{ type := "startAfterActivity", activityId := startAfterActivityId }] }
  if stateFieldNames.isEmpty then base
  else
    let vars := restartVariables stateFieldNames inst
    if vars.isEmpty then base else { base with varsMap := some vars }

/-- InstanceResolver.prototype.completeTaskForInstance (part_000 lines
863-895): the completion options handed to taskService.complete; the
variables property is always assigned (possibly an empty object). -/
def completeTaskForInstanceOpts (taskId : String) (stateChanges : JsObject) :
    EngineCompleteCall :=
  { taskId := taskId, varsMap := some (marshalStateVariables stateChanges) }

/-- The ACL gate of completeTask (part_000 lines 957-976): access match with
restriction-scope check, then the task match; the task match is returned for
later allowed-task filtering. -/
def completeTaskAclGate (cfg : ResolverCfg) (user : Option Identity)
    (inst : Instance) : Except RError (Option AclMatch) :=
  match cfg.acl with
  | none => .ok none
  | some applyRules =>
    let tgts := userToAclTargets cfg.ownerFields user (some inst)
    let accessMatch := applyRules tgts.1 "access" (some inst)
    if !accessMatch.allow then
      .error ⟨.authorization, "You do not have access to this object."⟩
    else if !restrictionsApplyToUser accessMatch.allowedRestrictions tgts.2 then
      .error ⟨.authorization, "You do not have access to this object."⟩
    else
      let tasksMatch := applyRules tgts.1 "task" (some inst)
      if !tasksMatch.allow then
        .error ⟨.authorization,
          "You do not have the rights allowed to destroy this object."⟩
      else .ok (some tasksMatch)

/-- The tail of completeTask from the forced state overlay on (part_000
lines 1013-1141): filtered state, id-sequence assignment, date assignment,
the state loop, the conditional save, the engine completion call, the
publish and the Success sentinel. -/
def completeTaskApply (cfg : ResolverCfg) (outcomeDefn : Outcome) (inst : Instance)
    (stateArg : Option JsObject) (taskIdStr : String)
    (seqAlloc : String → String) (nowValue : JsValue) (instanceIdStr : String) :
    CTResult :=
  let filteredState :=
    computeFilteredState cfg.stateFieldNames stateArg cfg.enums outcomeDefn.state
  let doSeq := !cfg.idSequenceFields.isEmpty && !outcomeDefn.sequenceAssignment.isEmpty
  let idSequencesToAssign :=
    if doSeq then
      cfg.idSequenceFields.filter (fun f =>
        outcomeDefn.sequenceAssignment.contains f.field &&
          !(match inst.get f.field with
            | some v => truthy v
            | none => false))
    else []
  let afterSeq := idSequencesToAssign.foldl (fun acc f =>
      ({ acc.1 with fields := jset acc.1.fields f.field (jstr (seqAlloc f.idSequence)) },
        true))
    (inst, false)
  let doDates := !cfg.dateTimeFieldNames.isEmpty && !outcomeDefn.dateAssignments.isEmpty
  let dateFieldsToAssign :=
    if doDates then
      outcomeDefn.dateAssignments.filter (fun f => cfg.dateTimeFieldNames.contains f)
    else []
  let afterDates := dateFieldsToAssign.foldl (fun acc f =>
      ({ acc.1 with fields := jset acc.1.fields f nowValue }, true)) afterSeq
  let stateRes := applyStateLoop afterDates.1 filteredState
  let didModify := afterDates.2 || stateRes.2.1
  let engineCall : EngineCompleteCall :=
    { taskId := taskIdStr,
      varsMap := if filteredState.isEmpty then none else some stateRes.2.2 }
  { outcome := some CTOutcome.success,
    listedTasks := true,
    savedInstance := if didModify then some stateRes.1 else none,
    engineComplete := some engineCall,
    publishedId := some instanceIdStr }

/-- completeTask from the allowed-task filtering on (part_000 lines
995-1006): the one-element task list filtered by allowedTasks when the task
match carries them, then the validation-set evaluation, then the tail. -/
def completeTaskTail (cfg : ResolverCfg) (outcomeDefn : Outcome) (inst : Instance)
    (stateArg : Option JsObject) (taskIdStr : String)
    (tasksAclMatch : Option AclMatch) (tasks : List TaskItem)
    (validationSet : Option (Instance → Bool))
    (seqAlloc : String → String) (nowValue : JsValue) (instanceIdStr : String) :
    CTResult :=
  let filteredTasks : List TaskItem :=
    match tasksAclMatch with
    | some m =>
      match m.allowedTasks with
      | some ts => tasks.filter (fun (t : TaskItem) => ts.contains t.taskDefinitionKey)
      | none => tasks
    | none => tasks
  if filteredTasks.isEmpty then
    { error := some ⟨.authorization,
        "You do not have access to the task associated with the instance."⟩,
      listedTasks := true }
  else
    let failsValidation :=
      match validationSet with
      | some vs => !outcomeDefn.skipValidations && !vs inst
      | none => false
    if failsValidation then
      { outcome := some .validationFailed, listedTasks := true }
    else
      completeTaskApply cfg outcomeDefn inst stateArg taskIdStr seqAlloc nowValue
        instanceIdStr

/-- InstanceResolver.prototype.completeTask (part_000 lines 899-1142).
External collaborators are parameters: foundInstance is the
modelClass.find result, user the resolved identity, engineTasks the engine
task list for the business key, validationSet the compiled validation set
(none when the form has none), seqAlloc the database sequence allocation and
nowValue the current date. -/
def completeTask (cfg : ResolverCfg) (args : CompleteTaskArgs)
    (foundInstance : Option Instance) (user : Option Identity)
    (engineTasks : List TaskItem) (validationSet : Option (Instance → Bool))
    (seqAlloc : String → String) (nowValue : JsValue) : CTResult :=
  if strFalsy args.id || strFalsy args.taskId || strFalsy args.form
      || strFalsy args.outcome then
    { error := some ⟨.userInput,
        "Complete Task requires an instance id, task id, form and outcome to be supplied"⟩ }
  else
    match cfg.forms.find? (fun f => args.form == some f.form) with
    | none => { error := some ⟨.generic, "Form is not defined for this instance type."⟩ }
    | some formDefn =>
      match formDefn.outcomes.find? (fun o => args.outcome == some o.type) with
      | none =>
        { error := some ⟨.generic,
            "Outcome is not defined within form definition for this instance type."⟩ }
      | some outcomeDefn =>
        if outcomeDefn.result != "Complete" then
          { error := some ⟨.generic,
              "Form outcome result type is not a complete task type."⟩ }
        else
          let taskIdStr := args.taskId.getD ""
          let instanceIdStr := args.id.getD ""
          let tasks := engineTasks.filter (fun t => args.taskId == some t.id)
          match foundInstance with
          | none =>
            { error := some ⟨.generic, "Instance with identifier not found."⟩,
              listedTasks := true }
          | some inst =>
            if tasks.isEmpty then
              { error := some ⟨.generic, "Specific task not found for instance."⟩,
                listedTasks := true }
            else
              match completeTaskAclGate cfg user inst with
              | .error e => { error := some e, listedTasks := true }
              | .ok tasksAclMatch =>
                if outcomeDefn.requiresValidatedSubmitter then
                  match user with
                  | none =>
                    { error := some ⟨.authorization,
                        "Task completion requires a validated submitter, no user authenticated."⟩,
                      listedTasks := true }
                  | some u =>
                    if !u.isValidatedEmail then
                      { outcome := some .validatedEmailRequired, listedTasks := true }
                    else
                      completeTaskTail cfg outcomeDefn inst args.state taskIdStr
                        tasksAclMatch tasks validationSet seqAlloc nowValue
                        instanceIdStr
                else
                  completeTaskTail cfg outcomeDefn inst args.state taskIdStr
                    tasksAclMatch tasks validationSet seqAlloc nowValue instanceIdStr

theorem jget_objCollect_aux (g : (String × α) → Option JsValue)
    (m : List (String × α)) :
    ∀ (acc : JsObject) (k : String), (m.map Prod.fst).Nodup →
      jget (m.foldl (fun acc kv =>
          match g kv with
          | some w => jset acc kv.1 w
          | none => acc) acc) k =
        match m.find? (fun kv => kv.1 == k) with
        | some kv =>
          match g kv with
          | some w => some w
          | none => jget acc k
        | none => jget acc k := by
  induction m with
  | nil => intro acc k _; rfl
  | cons kv0 rest ih =>
    intro acc k hnd
    simp only [List.map_cons, List.nodup_cons] at hnd
    rw [List.foldl_cons]
    cases hk : (kv0.1 == k) with
    | true =>
      have hkeq : kv0.1 = k := by simpa using hk
      have hrestnone : rest.find? (fun kv => kv.1 == k) = none := by
        apply List.find?_eq_none.mpr
        intro q hq hqk
        have hq1 : q.1 = k := by simpa using hqk
        exact hnd.1 (hkeq ▸ hq1 ▸ List.mem_map.mpr ⟨q, hq, rfl⟩)
      rw [show List.find? (fun kv => kv.1 == k) (kv0 :: rest) = some kv0 from by
        simp [List.find?_cons, hk]]
      rw [ih _ k hnd.2, hrestnone]
      cases hg : g kv0 with
      | some w =>
        simp only [hg]
        rw [hkeq, jget_jset_self]
      | none => simp only [hg]
    | false =>
      rw [show List.find? (fun kv => kv.1 == k) (kv0 :: rest)
            = List.find? (fun kv => kv.1 == k) rest from by
        simp [List.find?_cons, hk]]
      rw [ih _ k hnd.2]
      have hstep : jget (match g kv0 with
          | some w => jset acc kv0.1 w
          | none => acc) k = jget acc k := by
        cases hg : g kv0 with
        | some w =>
          simp only [hg]
          exact jget_jset_ne acc w (fun hkk => by simp [hkk] at hk)
        | none => simp only [hg]
      cases hf : rest.find? (fun kv => kv.1 == k) with
      | some kv =>
        cases hgkv : g kv with
        | some w => simp only [hgkv]
        | none => simp only [hgkv, hstep]
      | none => simp only [hstep]

theorem jget_objCollect (g : (String × α) → Option JsValue) (m : List (String × α))
    (k : String) (hnd : (m.map Prod.fst).Nodup) :
    jget (objCollect g m) k =
      match m.find? (fun kv => kv.1 == k) with
      | some kv => g kv
      | none => none := by
  rw [objCollect, jget_objCollect_aux g m [] k hnd]
  cases hf : m.find? (fun kv => kv.1 == k) with
  | none => rfl
  | some kv => cases hg : g kv <;> simp [hg]

theorem nodup_keys_jset (o : List (String × α)) (k : String) (v : α)
    (h : (o.map Prod.fst).Nodup) : ((jset o k v).map Prod.fst).Nodup := by
  induction o with
  | nil => simp [jset]
  | cons p rest ih =>
    rw [List.map_cons, List.nodup_cons] at h
    cases hp : (p.1 == k) with
    | true =>
      rw [show jset (p :: rest) k v = (k, v) :: rest from by simp [jset, hp]]
      rw [List.map_cons, List.nodup_cons]
      have hk : p.1 = k := by simpa using hp
      exact ⟨hk ▸ h.1, h.2⟩
    | false =>
      rw [show jset (p :: rest) k v = p :: jset rest k v from by simp [jset, hp]]
      rw [List.map_cons, List.nodup_cons]
      refine ⟨?_, ih h.2⟩
      intro hmem
      rcases mem_keys_jset rest k v p.1 hmem with h2 | h2
      · exact h.1 h2
      · rw [h2] at hp; simp at hp

theorem nodup_keys_objCollect (g : (String × α) → Option JsValue)
    (m : List (String × α)) : ((objCollect g m).map Prod.fst).Nodup := by
  suffices h : ∀ acc : JsObject, (acc.map Prod.fst).Nodup →
      ((m.foldl (fun acc kv =>
          match g kv with
          | some w => jset acc kv.1 w
          | none => acc) acc).map Prod.fst).Nodup by
    exact h [] (by simp)
  induction m with
  | nil => intro acc h; simpa using h
  | cons kv rest ih =>
    intro acc h
    rw [List.foldl_cons]
    apply ih
    cases hg : g kv with
    | some w => simp only [hg]; exact nodup_keys_jset _ _ _ h
    | none => simpa [hg] using h

theorem applyStateLoop_vars (m : JsObject) :
    ∀ (inst : Instance) (did : Bool) (vars0 : JsObject),
      (m.foldl stateApplyStep (inst, did, vars0)).2.2 =
        m.foldl (fun acc kv =>
          match marshalEntry kv with
          | some w => jset acc kv.1 w
          | none => acc) vars0 := by
  induction m with
  | nil => intro inst did vars0; rfl
  | cons kv rest ih =>
    intro inst did vars0
    rw [List.foldl_cons, List.foldl_cons]
    exact ih _ _ _

/-- The variables component of the completeTask state loop is exactly the
marshaled filtered state. -/
theorem applyStateLoop_vars_eq_marshal (inst : Instance) (m : JsObject) :
    (applyStateLoop inst m).2.2 = marshalStateVariables m :=
  applyStateLoop_vars m inst false []

theorem jget_marshalStateVariables (m : JsObject) (k : String)
    (hnd : (m.map Prod.fst).Nodup) :
    jget (marshalStateVariables m) k =
      match jget m k with
      | some v => marshalEntry (k, v)
      | none => none := by
  rw [marshalStateVariables, jget_objCollect marshalEntry m k hnd]
  cases hf : m.find? (fun kv => kv.1 == k) with
  | none => simp [jget, hf]
  | some kv => simp [jget, hf, marshalEntry]

theorem jget_restartVariables_aux (inst : Instance) (names : List String) :
    ∀ (acc : JsObject) (k : String), names.Nodup →
      jget (names.foldl (fun acc f =>
          match inst.get f with
          | some v =>
            match marshalEntry (f, v) with
            | some w => jset acc f w
            | none => acc
          | none => acc) acc) k =
        if names.contains k then
          match inst.get k with
          | some v =>
            match marshalEntry (k, v) with
            | some w => some w
            | none => jget acc k
          | none => jget acc k
        else jget acc k := by
  induction names with
  | nil => intro acc k _; simp
  | cons f0 rest ih =>
    intro acc k hnd
    rw [List.nodup_cons] at hnd
    rw [List.foldl_cons]
    by_cases hf : k = f0
    · subst hf
      have hrc : rest.contains k = false := by simpa using hnd.1
      rw [ih _ k hnd.2, hrc]
      have hcont : (k :: rest).contains k = true := by simp
      rw [hcont]
      simp only [Bool.false_eq_true, if_false, if_true]
      cases hgv : inst.get k with
      | some v =>
        cases hme : marshalEntry (k, v) with
        | some w => simp only [hgv, hme, jget_jset_self]
        | none => simp only [hgv, hme]
      | none => simp only [hgv]
    · have hstep : jget (match inst.get f0 with
          | some v =>
            match marshalEntry (f0, v) with
            | some w => jset acc f0 w
            | none => acc
          | none => acc) k = jget acc k := by
        cases hgv : inst.get f0 with
        | some v =>
          cases hme : marshalEntry (f0, v) with
          | some w =>
            simp only [hgv, hme]
            exact jget_jset_ne acc w hf
          | none => simp only [hgv, hme]
        | none => simp only [hgv]
      have hrc : (f0 :: rest).contains k = rest.contains k := by
        have hbeq : (k == f0) = false := by simpa using hf
        rw [List.contains_cons, hbeq, Bool.false_or]
      rw [ih _ k hnd.2, hstep, hrc]

theorem jget_restartVariables (names : List String) (inst : Instance) (k : String)
    (hnd : names.Nodup) :
    jget (restartVariables names inst) k =
      if names.contains k then
        match inst.get k with
        | some v => marshalEntry (k, v)
        | none => none
      else none := by
  rw [restartVariables, jget_restartVariables_aux inst names [] k hnd]
  cases hc : names.contains k with
  | true =>
    simp only [if_true]
    cases hgv : inst.get k with
    | some v =>
      cases hme : marshalEntry (k, v) with
      | some w => simp only [hgv, hme]
      | none => simp only [hgv, hme, jget_nil]
    | none => simp only [hgv, jget_nil]
  | false => simp

theorem jget_filterMap_pick (s : JsObject) (names : List String) (k : String) :
    jget (names.filterMap (fun k2 => (jget s k2).map (fun v => (k2, v)))) k =
      if names.contains k then jget s k else none := by
  induction names with
  | nil => simp
  | cons n rest ih =>
    rw [List.filterMap_cons]
    cases hg : jget s n with
    | none =>
      simp only [hg, Option.map_none']
      rw [ih]
      by_cases hn : k = n
      · subst hn
        have hcont : (k :: rest).contains k = true := by simp
        rw [hcont, hg]
        simp [ite_self]
      · have hbeq : (k == n) = false := by simpa using hn
        rw [List.contains_cons, hbeq, Bool.false_or]
    | some v =>
      simp only [hg, Option.map_some']
      rw [jget_cons]
      by_cases hn : n = k
      · have hb1 : ((n, v).1 == k) = true := by simpa using hn
        have hb2 : (k == n) = true := by simpa using hn.symm
        rw [hb1, List.contains_cons, hb2, Bool.true_or]
        subst hn
        rw [hg]
        rfl
      · have hb1 : ((n, v).1 == k) = false := by simpa using hn
        have hb2 : (k == n) = false := by
          simpa using (fun h => hn h.symm : ¬ k = n)
        rw [hb1, List.contains_cons, hb2, Bool.false_or]
        simpa using ih

theorem jget_pickStateFields (names : List String) (st : Option JsObject)
    (k : String) :
    jget (pickStateFields names st) k =
      if names.contains k then
        match st with
        | some s => jget s k
        | none => none
      else none := by
  cases st with
  | none => simp [pickStateFields, ite_self]
  | some s =>
    rw [pickStateFields]
    cases he : names.isEmpty with
    | true =>
      have : names = [] := by simpa using he
      subst this
      simp
    | false =>
      simp only [Bool.false_eq_true, if_false]
      exact jget_filterMap_pick s names k

theorem marshalEntry_eq_match (k : String) (v : JsValue) :
    marshalEntry (k, v) =
      match v with
      | .prim (.pStr s) => some (.obj [("value", .pStr s)])
      | .prim (.pNum n) => some (.obj [("value", .pNum n)])
      | .prim .pNull => some (.obj [("value", .pNull)])
      | _ => none := by
  cases v with
  | prim p => cases p <;> rfl
  | arr xs => rfl
  | obj fs => rfl

/-- C7: at the three variable-marshaling sites (the completeTask state loop,
restart, completeTaskForInstance), exactly the bindings whose value is a
string, a number or null are forwarded, wrapped as {key: {value}}; every
other value (array, object, boolean) is dropped silently, and an undefined
value has no binding at all.  Stated as a lookup characterization of each
marshaled variables map, requiring unique keys as in any JS object. -/
theorem engine_variable_marshaling
    (m : JsObject) (inst0 : Instance) (names : List String) (inst : Instance)
    (taskId : String) (sc : JsObject) (k : String) :
    ((m.map Prod.fst).Nodup →
      jget ((applyStateLoop inst0 m).2.2) k =
        match jget m k with
        | some (.prim (.pStr s)) => some (.obj [("value", .pStr s)])
        | some (.prim (.pNum n)) => some (.obj [("value", .pNum n)])
        | some (.prim .pNull) => some (.obj [("value", .pNull)])
        | _ => none) ∧
    (names.Nodup →
      jget (restartVariables names inst) k =
        if names.contains k then
          match inst.get k with
          | some (.prim (.pStr s)) => some (.obj [("value", .pStr s)])
          | some (.prim (.pNum n)) => some (.obj [("value", .pNum n)])
          | some (.prim .pNull) => some (.obj [("value", .pNull)])
          | _ => none
        else none) ∧
    ((completeTaskForInstanceOpts taskId sc).varsMap = some (marshalStateVariables sc)
      ∧ ((sc.map Prod.fst).Nodup →
        jget (marshalStateVariables sc) k =
          match jget sc k with
          | some (.prim (.pStr s)) => some (.obj [("value", .pStr s)])
          | some (.prim (.pNum n)) => some (.obj [("value", .pNum n)])
          | some (.prim .pNull) => some (.obj [("value", .pNull)])
          | _ => none)) := by
  refine ⟨?_, ?_, rfl, ?_⟩
  · intro hnd
    rw [applyStateLoop_vars_eq_marshal, jget_marshalStateVariables m k hnd]
    cases hg : jget m k with
    | none => rfl
    | some v =>
      cases v with
      | prim p => cases p <;> rfl
      | arr xs => rfl
      | obj fs => rfl
  · intro hnd
    rw [jget_restartVariables names inst k hnd]
    cases hc : names.contains k with
    | true =>
      simp only [if_true]
      cases hgv : inst.get k with
      | some v =>
        cases v with
        | prim p => cases p <;> rfl
        | arr xs => rfl
        | obj fs => rfl
      | none => rfl
    | false => simp
  · intro hnd
    rw [jget_marshalStateVariables sc k hnd]
    cases hg : jget sc k with
    | none => rfl
    | some v =>
      cases v with
      | prim p => cases p <;> rfl
      | arr xs => rfl
      | obj fs => rfl

/-- Witness for C7 at a concrete state map: a string value is forwarded
wrapped while a boolean value is dropped. -/
theorem engine_variable_marshaling_witness :
    (jget ((applyStateLoop { id := "A" }
        [("phase", jstr "published"), ("flag", .prim (.pBool true))]).2.2) "flag" =
      match jget [("phase", jstr "published"), ("flag", .prim (.pBool true))] "flag" with
      | some (.prim (.pStr s)) => some (.obj [("value", .pStr s)])
      | some (.prim (.pNum n)) => some (.obj [("value", .pNum n)])
      | some (.prim .pNull) => some (.obj [("value", .pNull)])
      | _ => none) ∧
    jget ((applyStateLoop { id := "A" }
        [("phase", jstr "published"), ("flag", .prim (.pBool true))]).2.2) "flag" = none :=
  ⟨(engine_variable_marshaling
      [("phase", jstr "published"), ("flag", .prim (.pBool true))]
      { id := "A" } [] { id := "A" } "T" [] "flag").1 (by decide),
   by rfl⟩

/-- C4 counterexample: an enum entry that resolves to a falsy value (here
the empty string) is dropped by the truthiness guard of part_000 line 1032
even though it is resolvable, so the client value survives where the claim
required the forced resolved value to override it. -/
theorem completeTask_state_overlay_counterexample :
    jget (computeFilteredState ["phase"] (some [("phase", jstr "client")])
        [("Phase", { values := [("Empty", jstr "")] })]
        (some [("phase", some (.enumRef "Phase.Empty"))])) "phase"
      = some (jstr "client") ∧
    resolveEnum [("Phase", { values := [("Empty", jstr "")] })] "Phase" "Empty"
      = some (jstr "") ∧
    some (jstr "client") ≠ some (jstr "") := by
  refine ⟨by decide, by decide, by decide⟩

/-- C4 (amended): in completeTask, the state applied to the entity and used
for the engine variables is the client-supplied state restricted to declared
state fields, overlaid by outcome.state, where an entry
{type:enum, value:E.K} resolves to enums[E].values[K] and is dropped when
the resolution fails or the resolved value is falsy, an entry
{type:simple, value:v} is the literal v, and for every key carrying a
resolvable forced entry the forced value overrides the client value.
Stated as a lookup characterization of computeFilteredState, with the
resolution rule embodied by resolveOverrideVal; outcome.state keys are
unique as in any JS object. -/
theorem completeTask_state_overlay
    (stateFieldNames : List String) (stateArg : Option JsObject)
    (enums : List (String × EnumDef))
    (ostate : List (String × Option OutcomeStateVal)) (k : String)
    (hnd : (ostate.map Prod.fst).Nodup) :
    (jget (computeFilteredState stateFieldNames stateArg enums (some ostate)) k =
      match jget ostate k with
      | some (some v) =>
        match resolveOverrideVal enums v with
        | some rv => some rv
        | none => jget (pickStateFields stateFieldNames stateArg) k
      | some none => jget (pickStateFields stateFieldNames stateArg) k
      | none => jget (pickStateFields stateFieldNames stateArg) k) ∧
    (jget (pickStateFields stateFieldNames stateArg) k =
      if stateFieldNames.contains k then
        match stateArg with
        | some s => jget s k
        | none => none
      else none) := by
  constructor
  · rw [computeFilteredState]
    rw [jget_objAssign (resolveOutcomeStateOverrides enums ostate)
      (pickStateFields stateFieldNames stateArg) k
      (nodup_keys_objCollect _ ostate)]
    rw [resolveOutcomeStateOverrides,
      jget_objCollect (fun kv =>
        match kv.2 with
        | some v => resolveOverrideVal enums v
        | none => none) ostate k hnd]
    rw [show jget ostate k
        = Option.map (fun p => p.2) (List.find? (fun kv => kv.1 == k) ostate) from rfl]
    cases hf : List.find? (fun kv => kv.1 == k) ostate with
    | none => rfl
    | some kv =>
      obtain ⟨k1, v2⟩ := kv
      cases v2 with
      | none => rfl
      | some v =>
        cases hrv : resolveOverrideVal enums v with
        | some rv => simp [hrv]
        | none => simp [hrv]
  · exact jget_pickStateFields stateFieldNames stateArg k

/-- Witness for C4 at a concrete configuration: a simple forced entry
overrides the client value of the phase state field. -/
theorem completeTask_state_overlay_witness :
    jget (computeFilteredState ["phase"] (some [("phase", jstr "client")]) []
        (some [("phase", some (.simple (jstr "forced")))])) "phase" =
      match jget [("phase", some (OutcomeStateVal.simple (jstr "forced")))] "phase" with
      | some (some v) =>
        match resolveOverrideVal [] v with
        | some rv => some rv
        | none => jget (pickStateFields ["phase"] (some [("phase", jstr "client")])) "phase"
      | some none => jget (pickStateFields ["phase"] (some [("phase", jstr "client")])) "phase"
      | none => jget (pickStateFields ["phase"] (some [("phase", jstr "client")])) "phase" :=
  (completeTask_state_overlay ["phase"] (some [("phase", jstr "client")]) []
    [("phase", some (.simple (jstr "forced")))] "phase" (by decide)).1

/-- C5 counterexample: when the named form is not among forms[], completeTask
throws a plain Error (part_000 line 907), not the dedicated NotFoundError
class the resolver uses elsewhere, so this failure is not a not-found error;
the outcome and result failures on lines 912 and 916 are plain Errors too. -/
theorem completeTask_precheck_counterexample :
    ((completeTask { forms := [] }
        { id := some "A", taskId := some "T", form := some "curate",
          outcome := some "accept" }
        none none [] none (fun _ => "S000001") (jstr "now")).error.map RError.kind
      = some ErrKind.generic) ∧
    ErrKind.generic ≠ ErrKind.notFound := by
  exact ⟨rfl, by decide⟩

/-- C5 (amended): completeTask fails with a UserInputError whenever any of
id, taskId, form or outcome is missing; then fails with a plain logic-level
Error (not the dedicated NotFoundError class) when the named form is not in
forms[], then when the named outcome is not in that form, and then when the
resolved outcome result is not Complete; the four checks run in that order,
and each failure happens before the engine task listing, before any save and
before the engine completion call (all effect fields of the result are
empty). -/
theorem completeTask_precheck_order
    (cfg : ResolverCfg) (args : CompleteTaskArgs) (foundInstance : Option Instance)
    (user : Option Identity) (engineTasks : List TaskItem)
    (validationSet : Option (Instance → Bool)) (seqAlloc : String → String)
    (nowValue : JsValue) :
    ((strFalsy args.id || strFalsy args.taskId || strFalsy args.form
        || strFalsy args.outcome) = true →
      completeTask cfg args foundInstance user engineTasks validationSet seqAlloc
          nowValue
        = { error := some ⟨.userInput,
            "Complete Task requires an instance id, task id, form and outcome to be supplied"⟩ }) ∧
    ((strFalsy args.id || strFalsy args.taskId || strFalsy args.form
        || strFalsy args.outcome) = false →
      cfg.forms.find? (fun f => args.form == some f.form) = none →
      completeTask cfg args foundInstance user engineTasks validationSet seqAlloc
          nowValue
        = { error := some ⟨.generic, "Form is not defined for this instance type."⟩ }) ∧
    (∀ formDefn,
      (strFalsy args.id || strFalsy args.taskId || strFalsy args.form
        || strFalsy args.outcome) = false →
      cfg.forms.find? (fun f => args.form == some f.form) = some formDefn →
      formDefn.outcomes.find? (fun o => args.outcome == some o.type) = none →
      completeTask cfg args foundInstance user engineTasks validationSet seqAlloc
          nowValue
        = { error := some ⟨.generic,
            "Outcome is not defined within form definition for this instance type."⟩ }) ∧
    (∀ formDefn outcomeDefn,
      (strFalsy args.id || strFalsy args.taskId || strFalsy args.form
        || strFalsy args.outcome) = false →
      cfg.forms.find? (fun f => args.form == some f.form) = some formDefn →
      formDefn.outcomes.find? (fun o => args.outcome == some o.type)
        = some outcomeDefn →
      (outcomeDefn.result != "Complete") = true →
      completeTask cfg args foundInstance user engineTasks validationSet seqAlloc
          nowValue
        = { error := some ⟨.generic,
            "Form outcome result type is not a complete task type."⟩ }) := by
  refine ⟨?_, ?_, ?_, ?_⟩
  · intro h
    unfold completeTask
    rw [h]
    rfl
  · intro h hf
    unfold completeTask
    rw [h, hf]
    rfl
  · intro formDefn h hf ho
    unfold completeTask
    simp only [h, hf, ho]
    rfl
  · intro formDefn outcomeDefn h hf ho hr
    unfold completeTask
    simp only [h, hf, ho, hr]
    rfl

/-- Witness for C5 at a concrete call: a form name absent from forms[]. -/
theorem completeTask_precheck_order_witness :
    completeTask { forms := [] }
        { id := some "A", taskId := some "T", form := some "curate",
          outcome := some "accept" }
        none none [] none (fun _ => "S000001") (jstr "now")
      = { error := some ⟨.generic, "Form is not defined for this instance type."⟩ } :=
  (completeTask_precheck_order { forms := [] }
      { id := some "A", taskId := some "T", form := some "curate",
        outcome := some "accept" }
      none none [] none (fun _ => "S000001") (jstr "now")).2.1 (by decide) rfl

/-- C6: when the resolved outcome requires a validated submitter and the
call has passed every earlier gate (arguments present, form and outcome
resolved with result Complete, instance found, matching engine task present,
ACL gate allowing), a missing subject throws an AuthorizationError, and a
subject whose email is not validated makes completeTask return the
ValidatedEmailRequired sentinel as a normal value, with nothing saved, no
engine completion call and no published event. -/
theorem completeTask_validated_submitter
    (cfg : ResolverCfg) (args : CompleteTaskArgs) (foundInstance : Option Instance)
    (user : Option Identity) (engineTasks : List TaskItem)
    (validationSet : Option (Instance → Bool)) (seqAlloc : String → String)
    (nowValue : JsValue) (formDefn : FormDef) (outcomeDefn : Outcome)
    (inst : Instance) (tasksAclMatch : Option AclMatch)
    (hargs : (strFalsy args.id || strFalsy args.taskId || strFalsy args.form
        || strFalsy args.outcome) = false)
    (hform : cfg.forms.find? (fun f => args.form == some f.form) = some formDefn)
    (houtcome : formDefn.outcomes.find? (fun o => args.outcome == some o.type)
        = some outcomeDefn)
    (hresult : (outcomeDefn.result != "Complete") = false)
    (hreq : outcomeDefn.requiresValidatedSubmitter = true)
    (hinst : foundInstance = some inst)
    (htasks : (engineTasks.filter (fun t => args.taskId == some t.id)).isEmpty
        = false)
    (hacl : completeTaskAclGate cfg user inst = .ok tasksAclMatch) :
    (user = none →
      completeTask cfg args foundInstance user engineTasks validationSet seqAlloc
          nowValue
        = { error := some ⟨.authorization,
            "Task completion requires a validated submitter, no user authenticated."⟩,
            listedTasks := true }) ∧
    (∀ u, user = some u → u.isValidatedEmail = false →
      completeTask cfg args foundInstance user engineTasks validationSet seqAlloc
          nowValue
        = { outcome := some .validatedEmailRequired, listedTasks := true }) := by
  constructor
  · intro huser
    subst huser hinst
    unfold completeTask
    simp only [hargs, hform, houtcome, hresult, htasks, hacl, hreq]
    rfl
  · intro u huser hval
    subst huser hinst
    unfold completeTask
    simp only [hargs, hform, houtcome, hresult, htasks, hacl, hreq, hval]
    rfl

/-- A concrete outcome requiring a validated submitter (for the C6 witness). -/
def outcomeW : Outcome :=
  { type := "accept", result := "Complete", requiresValidatedSubmitter := true }

/-- A concrete form holding outcomeW (for the C6 witness). -/
def formW : FormDef := { form := "curate", outcomes := [outcomeW] }

/-- A concrete resolver configuration (for the C6 witness). -/
def cfgW : ResolverCfg := { forms := [formW] }

/-- Concrete completeTask arguments (for the C6 witness). -/
def argsW : CompleteTaskArgs :=
  { id := some "A", taskId := some "T", form := some "curate",
    outcome := some "accept" }

/-- A concrete subject with an unvalidated email (for the C6 witness). -/
def userW : Identity := { id := "u1", isValidatedEmail := false }

/-- Witness for C6 at a concrete call: an outcome requiring a validated
submitter, a subject with an unvalidated email, no ACL on the model. -/
theorem completeTask_validated_submitter_witness :
    completeTask cfgW argsW (some { id := "A" }) (some userW)
        [{ id := "T", taskDefinitionKey := "curate-task" }]
        none (fun _ => "S000001") (jstr "now")
      = { outcome := some .validatedEmailRequired, listedTasks := true } :=
  (completeTask_validated_submitter cfgW argsW (some { id := "A" }) (some userW)
      [{ id := "T", taskDefinitionKey := "curate-task" }]
      none (fun _ => "S000001") (jstr "now")
      formW outcomeW { id := "A" } none
      (by decide) (by decide) (by decide) (by decide) (by decide) rfl (by decide)
      rfl).2 userW rfl rfl

/-! ## Listing: paging -/

/-- The pageInfo record a list call returns (part_000 lines 464-471). -/
structure PageInfo where
  totalCount : Int
  offset : Int
  pageSize : Int
deriving DecidableEq, Repr

/-- The limit of a list call (part_000 line 197): input.first || 200, the JS
|| treating a 0 (falsy) first as unset. -/
def listLimit (first : Option Int) : Int :=
  match first with
  | some n => if n == 0 then 200 else n
  | none => 200

/-- The offset of a list call (part_000 line 198): input.offset || 0 (for an
integer offset, 0 when unset or 0, the value otherwise). -/
def listOffsetVal (offset : Option Int) : Int :=
  match offset with
  | some n => n
  | none => 0

/-- The paged slice and pageInfo of a list call (part_000 lines 197-198, 248
and 453-471) over the rows matching the built WHERE clause in database
order: LIMIT and OFFSET are applied, and totalCount is read from the
internal_full_count window aggregate of the first returned row (the full
matching count), or set to 0 on an empty page. -/
def listPagedResult (matching : List Row) (first offset : Option Int) :
    List Row × PageInfo :=
  let limit := listLimit first
  let off := listOffsetVal offset
  let page := (matching.drop off.toNat).take limit.toNat
  let totalCount : Int := if page.isEmpty then 0 else matching.length
  (page, { totalCount := totalCount, offset := off, pageSize := limit })

/-- C9 counterexample: with first = 0 the JS || default turns the limit into
200, so over one matching row the results hold that row (not the empty list)
and pageSize is 200 (not 0). -/
theorem list_first_zero_counterexample :
    ((listPagedResult [[("id", some (jstr "A"))]] (some 0) none).1
      = [[("id", some (jstr "A"))]]) ∧
    (listPagedResult [[("id", some (jstr "A"))]] (some 0) none).2.pageSize = 200 ∧
    (200 : Int) ≠ 0 := by
  exact ⟨rfl, rfl, by decide⟩

/-- C9 (amended): first = 0 is treated as unset by the || default, so the
call behaves exactly like a call without first: pageSize is 200, the page is
the first 200 matching rows past the offset, and on an unset offset with at
least one matching row the results are non-empty and totalCount equals the
full count of rows matching the same filter. -/
theorem list_first_zero_paging (matching : List Row) (offset : Option Int) :
    listPagedResult matching (some 0) offset = listPagedResult matching none offset ∧
    (listPagedResult matching (some 0) offset).2.pageSize = 200 ∧
    (matching ≠ [] →
      (listPagedResult matching (some 0) none).2.totalCount = matching.length ∧
      (listPagedResult matching (some 0) none).1 ≠ []) := by
  refine ⟨rfl, rfl, ?_⟩
  intro hne
  cases matching with
  | nil => exact absurd rfl hne
  | cons r rest =>
    have hpage : (listPagedResult (r :: rest) (some 0) none).1
        = r :: rest.take 199 := by
      simp [listPagedResult, listLimit, listOffsetVal]
    constructor
    · have : (listPagedResult (r :: rest) (some 0) none).2.totalCount
          = if (listPagedResult (r :: rest) (some 0) none).1.isEmpty then 0
            else ((r :: rest).length : Int) := rfl
      rw [this, hpage]
      simp
    · rw [hpage]
      simp

/-- Witness for C9 at one concrete matching row. -/
theorem list_first_zero_paging_witness :
    (listPagedResult [[("id", some (jstr "A"))]] (some 0) none).2.totalCount
        = ([[("id", some (jstr "A"))]] : List Row).length ∧
    (listPagedResult [[("id", some (jstr "A"))]] (some 0) none).1 ≠ [] :=
  (list_first_zero_paging [[("id", some (jstr "A"))]] none).2.2 (by decide)

/-! ## Request-scoped instance cache -/

/-- Property read on a nat-keyed JS object (the instanceLookup bag is keyed
by the numeric resolver id). -/
def njget (o : List (Nat × α)) (k : Nat) : Option α :=
  (o.find? (fun p => p.1 == k)).map (fun p => p.2)

/-- Property write on a nat-keyed JS object. -/
def njset : List (Nat × α) → Nat → α → List (Nat × α)
  | [], k, v => [(k, v)]
  | p :: rest, k, v => if p.1 == k then (k, v) :: rest else p :: njset rest k v

theorem njget_cons (p : Nat × α) (o : List (Nat × α)) (k : Nat) :
    njget (p :: o) k = if p.1 == k then some p.2 else njget o k := by
  by_cases h : p.1 == k <;> simp [njget, List.find?_cons, h]

@[simp] theorem njget_njset_self (o : List (Nat × α)) (k : Nat) (v : α) :
    njget (njset o k v) k = some v := by
  induction o with
  | nil => simp [njset, njget_cons]
  | cons p rest ih =>
    by_cases h : p.1 == k
    · simp [njset, h, njget_cons]
    · simp [njset, h, njget_cons, ih]

theorem njget_njset_ne (o : List (Nat × α)) {k k' : Nat} (v : α) (h : k' ≠ k) :
    njget (njset o k v) k' = njget o k' := by
  induction o with
  | nil =>
    have : (k == k') = false := by simpa [beq_iff_eq] using fun hk => h hk.symm
    simp [njset, njget_cons, this]
  | cons p rest ih =>
    by_cases hp : p.1 == k
    · have hk : p.1 = k := by simpa using hp
      have h1 : (k == k') = false := by simpa [beq_iff_eq] using fun hk2 => h hk2.symm
      have h2 : (p.1 == k') = false := by
        simpa [hk, beq_iff_eq] using fun hk2 => h hk2.symm
      simp [njset, hp, njget_cons, h1, h2]
    · by_cases hp' : p.1 == k'
      · simp [njset, hp, njget_cons, hp']
      · simp [njset, hp, njget_cons, hp', ih]

/-- The per-request GraphQL context as the resolver reads it: the raw user
handle and the instanceLookup memo bag, a map from resolver id to an
id-to-entity map. -/
structure ReqContext where
  user : Option String := none
  instanceLookup : List (Nat × List (String × Instance)) := []
deriving DecidableEq, Repr

/-- JS truthiness of context.user. -/
def ctxUserTruthy (ctx : ReqContext) : Bool :=
  match ctx.user with
  | some s => !s.isEmpty
  | none => false

/-- The constructor draw from the process-wide
InstanceResolverContextLookupUniqueId counter (part_000 lines 44 and 50):
the id the new resolver takes and the next counter value. -/
def mkResolverContextLookupId (counter : Nat) : Nat × Nat := (counter, counter + 1)

/-- The instanceLookup bag after the two materializing mutations of part_000
lines 1188-1194: the per-resolver submap is created when absent. -/
def materializedLookup (ctx : ReqContext) (contextLookupId : Nat) :
    List (Nat × List (String × Instance)) :=
  if (njget ctx.instanceLookup contextLookupId).isSome then ctx.instanceLookup
  else njset ctx.instanceLookup contextLookupId []

/-- The per-resolver id-to-entity map (instanceLookupMap, line 1196). -/
def resolverMapOf (ctx : ReqContext) (contextLookupId : Nat) :
    List (String × Instance) :=
  (njget (materializedLookup ctx contextLookupId) contextLookupId).getD []

/-- The authenticated-context path of resolveInstanceUsingContext (part_000
lines 1188-1205): a truthy entry of the per-resolver map is returned without
a find; otherwise the find result is returned and a found entity memoized. -/
def resolveWithUser (db : String → Option Instance) (contextLookupId : Nat)
    (instanceId : String) (ctx : ReqContext) :
    Option Instance × ReqContext × Bool :=
  let lookup1 := materializedLookup ctx contextLookupId
  let resolverMap := resolverMapOf ctx contextLookupId
  match jget resolverMap instanceId with
  | some inst => (some inst, { ctx with instanceLookup := lookup1 }, false)
  | none =>
    match db instanceId with
    | some inst =>
      let newLookup :=
        njset lookup1 contextLookupId (jset resolverMap instanceId inst)
      (some inst, { ctx with instanceLookup := newLookup }, true)
    | none => (none, { ctx with instanceLookup := lookup1 }, true)

/-- InstanceResolver.prototype.resolveInstanceUsingContext (part_000 lines
1182-1206).  db is the modelClass.find collaborator.  Returns the resolved
entity, the context after its mutations, and whether a database find was
performed.  Without a truthy context user the cache is bypassed entirely
(line 1184). -/
def resolveInstanceUsingContext (db : String → Option Instance)
    (contextLookupId : Nat) (instanceId : String) (ctx : ReqContext) :
    Option Instance × ReqContext × Bool :=
  if !ctxUserTruthy ctx then (db instanceId, ctx, true)
  else resolveWithUser db contextLookupId instanceId ctx

/-- C10 counterexample: on a context without an authenticated user the cache
is bypassed (part_000 line 1184), so after a first successful resolution a
second call with the same id, resolver and context still performs a database
find. -/
theorem resolve_instance_memo_counterexample :
    ((resolveInstanceUsingContext (fun _ => some { id := "A" }) 1 "A"
        { user := none }).1 = some { id := "A" }) ∧
    ((resolveInstanceUsingContext (fun _ => some { id := "A" }) 1 "A"
        ((resolveInstanceUsingContext (fun _ => some { id := "A" }) 1 "A"
          { user := none }).2.1)).2.2 = true) := by
  exact ⟨rfl, rfl⟩

theorem njget_materializedLookup (ctx : ReqContext) (lid : Nat) :
    njget (materializedLookup ctx lid) lid = some (resolverMapOf ctx lid) := by
  unfold resolverMapOf materializedLookup
  cases h : njget ctx.instanceLookup lid with
  | some m => simp [h]
  | none => simp [h]

theorem njget_materializedLookup_ne (ctx : ReqContext) (lid lid2 : Nat)
    (hne : lid2 ≠ lid) :
    njget (materializedLookup ctx lid) lid2 = njget ctx.instanceLookup lid2 := by
  unfold materializedLookup
  cases h : njget ctx.instanceLookup lid with
  | some m => simp [h]
  | none =>
    simp only [h, Option.isSome_none, Bool.false_eq_true, if_false]
    exact njget_njset_ne _ _ hne

theorem resolveWithUser_hit (db : String → Option Instance) (lid : Nat)
    (iid : String) (ctx1 : ReqContext) (M : List (String × Instance))
    (inst : Instance)
    (hM : njget ctx1.instanceLookup lid = some M)
    (hjm : jget M iid = some inst) :
    resolveWithUser db lid iid ctx1 = (some inst, ctx1, false) := by
  unfold resolveWithUser resolverMapOf materializedLookup
  rw [hM]
  simp only [Option.isSome_some, if_true]
  rw [hM]
  simp only [Option.getD_some, hjm]

theorem resolveWithUser_preserves_user (db : String → Option Instance) (lid : Nat)
    (iid : String) (ctx : ReqContext) :
    ((resolveWithUser db lid iid ctx).2.1).user = ctx.user := by
  unfold resolveWithUser
  cases hjm : jget (resolverMapOf ctx lid) iid with
  | some i0 => simp only [hjm]
  | none =>
    cases hdb : db iid with
    | some i1 => simp only [hjm, hdb]
    | none => simp only [hjm, hdb]

/-- The context after memoizing a found entity (part_000 line 1203). -/
def memoStoreCtx (ctx : ReqContext) (lid : Nat) (iid : String)
    (inst : Instance) : ReqContext :=
  { ctx with
    instanceLookup :=
      njset (materializedLookup ctx lid) lid
        (jset (resolverMapOf ctx lid) iid inst) }

theorem resolveWithUser_memo (db db2 : String → Option Instance) (lid : Nat)
    (iid : String) (ctx : ReqContext) (inst : Instance)
    (hres : (resolveWithUser db lid iid ctx).1 = some inst) :
    resolveWithUser db2 lid iid ((resolveWithUser db lid iid ctx).2.1)
      = (some inst, (resolveWithUser db lid iid ctx).2.1, false) := by
  cases hjm : jget (resolverMapOf ctx lid) iid with
  | some i0 =>
    have hr : resolveWithUser db lid iid ctx
        = (some i0, { ctx with instanceLookup := materializedLookup ctx lid },
            false) := by
      unfold resolveWithUser
      simp only [hjm]
    rw [hr] at hres ⊢
    have hi : i0 = inst := by simpa using hres
    subst hi
    exact resolveWithUser_hit db2 lid iid _ (resolverMapOf ctx lid)
      i0 (njget_materializedLookup ctx lid) hjm
  | none =>
    cases hdb : db iid with
    | some i1 =>
      have hr : resolveWithUser db lid iid ctx
          = (some i1, memoStoreCtx ctx lid iid i1, true) := by
        unfold resolveWithUser memoStoreCtx
        simp only [hjm, hdb]
      rw [hr] at hres ⊢
      have hi : i1 = inst := by simpa using hres
      subst hi
      exact resolveWithUser_hit db2 lid iid _
        (jset (resolverMapOf ctx lid) iid i1)
        i1 (njget_njset_self _ _ _) (jget_jset_self _ _ _)
    | none =>
      have hr : (resolveWithUser db lid iid ctx).1 = none := by
        unfold resolveWithUser
        simp only [hjm, hdb]
      rw [hr] at hres
      cases hres

theorem resolveWithUser_isolated (db : String → Option Instance) (lid lid2 : Nat)
    (iid : String) (ctx : ReqContext) (hne : lid2 ≠ lid) :
    njget ((resolveWithUser db lid iid ctx).2.1).instanceLookup lid2
      = njget ctx.instanceLookup lid2 := by
  unfold resolveWithUser
  cases hjm : jget (resolverMapOf ctx lid) iid with
  | some i0 =>
    simp only [hjm]
    exact njget_materializedLookup_ne ctx lid lid2 hne
  | none =>
    cases hdb : db iid with
    | some i1 =>
      simp only [hjm, hdb]
      rw [njget_njset_ne _ _ hne]
      exact njget_materializedLookup_ne ctx lid lid2 hne
    | none =>
      simp only [hjm, hdb]
      exact njget_materializedLookup_ne ctx lid lid2 hne

/-- C10 (amended): on request contexts carrying an authenticated user, once
resolveInstanceUsingContext has resolved an entity, calling again with the
same id, resolver and context returns that memoized entity without any
database find (whatever the database would now answer); the memo bag is
keyed by the resolver contextLookupId, so a resolver with a different id
neither reads nor overwrites the entries of another, and the process-wide
counter hands out distinct ids to successive resolvers; on contexts without
an authenticated user the cache is bypassed and every call performs a find. -/
theorem resolve_instance_memoization
    (db db2 : String → Option Instance) (lid lid2 : Nat) (instanceId : String)
    (ctx : ReqContext) (inst : Instance) (counter : Nat) :
    (ctxUserTruthy ctx = true →
      (resolveInstanceUsingContext db lid instanceId ctx).1 = some inst →
      resolveInstanceUsingContext db2 lid instanceId
          ((resolveInstanceUsingContext db lid instanceId ctx).2.1)
        = (some inst, (resolveInstanceUsingContext db lid instanceId ctx).2.1,
            false)) ∧
    (lid2 ≠ lid →
      njget ((resolveInstanceUsingContext db lid instanceId ctx).2.1).instanceLookup
          lid2
        = njget ctx.instanceLookup lid2) ∧
    ((mkResolverContextLookupId counter).1
      ≠ (mkResolverContextLookupId (mkResolverContextLookupId counter).2).1) ∧
    (ctxUserTruthy ctx = false →
      (resolveInstanceUsingContext db lid instanceId ctx).2.2 = true) := by
  refine ⟨?_, ?_, ?_, ?_⟩
  · intro hu hres
    have hcond : (!ctxUserTruthy ctx) = false := by rw [hu]; rfl
    unfold resolveInstanceUsingContext at hres ⊢
    rw [hcond] at hres ⊢
    simp only [Bool.false_eq_true, if_false] at hres ⊢
    have h2 : ctxUserTruthy ((resolveWithUser db lid instanceId ctx).2.1)
        = ctxUserTruthy ctx := by
      unfold ctxUserTruthy
      rw [resolveWithUser_preserves_user]
    have hu1 : (!ctxUserTruthy ((resolveWithUser db lid instanceId ctx).2.1))
        = false := by
      rw [h2, hu]; rfl
    rw [hu1]
    simp only [Bool.false_eq_true, if_false]
    exact resolveWithUser_memo db db2 lid instanceId ctx inst hres
  · intro hne
    unfold resolveInstanceUsingContext
    cases hcu : (!ctxUserTruthy ctx) with
    | true => rfl
    | false =>
      simp only [Bool.false_eq_true, if_false]
      exact resolveWithUser_isolated db lid lid2 instanceId ctx hne
  · simp [mkResolverContextLookupId]
  · intro hu
    have hcond : (!ctxUserTruthy ctx) = true := by rw [hu]; rfl
    unfold resolveInstanceUsingContext
    rw [hcond]
    simp only [if_true]

/-- Witness for C10 at a concrete authenticated context: the first call
resolves and memoizes, the second returns the memoized entity with no find. -/
theorem resolve_instance_memoization_witness :
    resolveInstanceUsingContext (fun _ => none) 1 "A"
        ((resolveInstanceUsingContext (fun _ => some { id := "A" }) 1 "A"
          { user := some "u1" }).2.1)
      = (some { id := "A" },
          (resolveInstanceUsingContext (fun _ => some { id := "A" }) 1 "A"
            { user := some "u1" }).2.1,
          false) :=
  (resolve_instance_memoization (fun _ => some { id := "A" }) (fun _ => none)
      1 2 "A" { user := some "u1" } { id := "A" } 0).1 (by decide) rfl

end PhysiomeRes
